import Mathlib

/-!
Verification development for the weekly-chore-calendar application.

The backend (Express + SQLite) is embedded as pure Lean functions over an
explicit record store; each HTTP route handler becomes a function from the
authenticated claims, the request parameters/body and the current store to a
result (status code, JSON body, next store).  The client-side calendar
engine (`src/App.tsx`) is embedded with dates represented as integer day
numbers (days since 1970-01-01); a JS `Date` value is a day number together
with the milliseconds elapsed within that day.
-/

namespace ChoreCal

/-! ## Calendar engine (src/App.tsx)

A JS `Date` is modelled as a calendar day number (days since 1970-01-01,
negative for earlier dates) plus the time of day.  1970-01-01 was a
Thursday, so the day of week of day number `z` is `(z + 4) % 7` with
`0 = Sunday`, matching JS `Date.getDay`. -/

structure JSDate where
  day : Int
  msOfDay : Nat
deriving Repr, DecidableEq

/-- Day of week of a day number, `0 = Sunday … 6 = Saturday`;
models JS `Date.getDay()`. -/
def jsGetDay (z : Int) : Int := (z + 4) % 7

/-- Embeds `getWeekStart` from `src/App.tsx`: go back `getDay()` days to the
Sunday of the week and truncate the time to midnight
(`d.setDate(d.getDate() - dayOfWeek); d.setHours(0,0,0,0)`). -/
def getWeekStart (d : JSDate) : JSDate :=
  { day := d.day - jsGetDay d.day, msOfDay := 0 }

/-- The `n` consecutive day numbers starting at `c`. -/
def consecFrom (c : Int) (n : Nat) : List Int :=
  (List.range n).map (fun (i : Nat) => c + (i : Int))

/-- Gregorian leap-year rule (semantics of the external JS `Date` runtime). -/
def isLeap (y : Int) : Bool := y % 4 = 0 && (y % 100 != 0 || y % 400 = 0)

/-- Number of days of month `m` (0-based as in JS `Date.getMonth`) of year
`y` (semantics of the external JS `Date` runtime). -/
def daysInMonth (y : Int) (m : Nat) : Nat :=
  match m with
  | 0 => 31
  | 1 => if isLeap y then 29 else 28
  | 2 => 31
  | 3 => 30
  | 4 => 31
  | 5 => 30
  | 6 => 31
  | 7 => 31
  | 8 => 30
  | 9 => 31
  | 10 => 30
  | _ => 31

/-- Day number of the first day of month `m` (0-based) of year `y`: the
semantics of the JS expression `new Date(y, m, 1)` (at midnight), computed
by the standard civil-from-days conversion (days since 1970-01-01). -/
def firstOfMonthDay (y : Int) (m : Nat) : Int :=
  let m1 : Int := (m : Int) + 1
  let yAdj : Int := if m1 ≤ 2 then y - 1 else y
  let era : Int := Int.ediv yAdj 400
  let yoe : Int := yAdj - era * 400
  let mp : Int := (m1 + 9) % 12
  let doy : Int := Int.ediv (153 * mp + 2) 5
  let doe : Int := yoe * 365 + Int.ediv yoe 4 - Int.ediv yoe 100 + doy
  era * 146097 + doe - 719468

/-- Day number of the last day of month `m` (0-based) of year `y`: the
semantics of the JS expression `new Date(y, m + 1, 0)`, i.e. the day before
the first of the following month, which is the first of month `m` plus the
month length minus one. -/
def endOfMonthDay (y : Int) (m : Nat) : Int :=
  firstOfMonthDay y m + daysInMonth y m - 1

/-- Embeds the `while (true)` row loop of `monthMatrix` in `src/App.tsx`:
push a row of 7 consecutive dates, then stop as soon as the row's last date
reaches or passes the month's last day. -/
def buildWeeks (current endD : Int) : List (List Int) :=
  let week := consecFrom current 7
  if endD ≤ current + 6 then [week]
  else week :: buildWeeks (current + 7) endD
termination_by (endD - current).toNat
decreasing_by
  simp only [not_le] at *
  omega

/-- Embeds `monthMatrix` from `src/App.tsx` for the reference month
`(y, m)` (`m` 0-based): rows of 7 consecutive dates starting at the week
start of the first of the month, until a row's last date reaches or passes
the end of the month. -/
def monthMatrix (y : Int) (m : Nat) : List (List Int) :=
  let firstOfMonth := firstOfMonthDay y m
  let start := (getWeekStart ⟨firstOfMonth, 0⟩).day
  let endOfMonth := endOfMonthDay y m
  buildWeeks start endOfMonth

/-! ## JSON values

Response bodies are modelled as a small JSON value type. -/

inductive Json where
  | null : Json
  | str : String → Json
  | num : Int → Json
  | arr : List Json → Json
  | obj : List (String × Json) → Json
deriving Repr

/-- Error body `{ error: msg }` as produced by `res.json({ error: ... })`. -/
def errJson (msg : String) : Json := Json.obj [("error", Json.str msg)]

/-- Message body `{ message: msg }`. -/
def msgJson (msg : String) : Json := Json.obj [("message", Json.str msg)]

/-- A string value occurs somewhere inside a JSON value. -/
inductive Json.Mentions (s : String) : Json → Prop
  | strSelf : Json.Mentions s (Json.str s)
  | inArr {x : Json} {xs : List Json} :
      Json.Mentions s x → x ∈ xs → Json.Mentions s (Json.arr xs)
  | inObj {k : String} {v : Json} {fs : List (String × Json)} :
      Json.Mentions s v → (k, v) ∈ fs → Json.Mentions s (Json.obj fs)

/-! ## Record store (backend/db/database.js)

The five SQLite tables are modelled as lists of rows; the `created_at`
columns are omitted (no route reads them).  Inserts enforce the PRIMARY KEY
and UNIQUE constraints declared in the schema, distinguishing the two
SQLite error codes, since route handlers translate only
`SQLITE_CONSTRAINT_UNIQUE` to a 409. -/

structure Family where
  id : String
  name : String
deriving Repr, DecidableEq

structure Admin where
  id : String
  family_id : String
  email : String
  password_hash : String
deriving Repr, DecidableEq

structure Person where
  id : String
  family_id : String
  name : String
  email : String
  phone : Option String
  color : String
deriving Repr, DecidableEq

structure Chore where
  id : String
  family_id : String
  label : String
deriving Repr, DecidableEq

structure Assignment where
  id : String
  family_id : String
  person_id : String
  chore_id : String
  week_start_iso : String
  day_index : Int
deriving Repr, DecidableEq

structure Store where
  families : List Family
  admins : List Admin
  people : List Person
  chores : List Chore
  assignments : List Assignment
deriving Repr, DecidableEq

/-- The empty database. -/
def Store.empty : Store := ⟨[], [], [], [], []⟩

inductive DbErr where
  | pkViol : DbErr
  | uniqueViol : DbErr
deriving Repr, DecidableEq

/-- Insert into `families` (PRIMARY KEY id). -/
def insertFamily (s : Store) (f : Family) : Except DbErr Store :=
  if s.families.any (fun g => g.id == f.id) then .error .pkViol
  else .ok { s with families := s.families ++ [f] }

/-- Insert into `admins` (PRIMARY KEY id, UNIQUE(family_id, email)). -/
def insertAdmin (s : Store) (a : Admin) : Except DbErr Store :=
  if s.admins.any (fun b => b.id == a.id) then .error .pkViol
  else if s.admins.any (fun b => b.family_id == a.family_id && b.email == a.email) then
    .error .uniqueViol
  else .ok { s with admins := s.admins ++ [a] }

/-- Insert into `people` (PRIMARY KEY id, UNIQUE(family_id, email)). -/
def insertPerson (s : Store) (p : Person) : Except DbErr Store :=
  if s.people.any (fun q => q.id == p.id) then .error .pkViol
  else if s.people.any (fun q => q.family_id == p.family_id && q.email == p.email) then
    .error .uniqueViol
  else .ok { s with people := s.people ++ [p] }

/-- Insert into `chores` (PRIMARY KEY id; no UNIQUE constraint on label). -/
def insertChore (s : Store) (c : Chore) : Except DbErr Store :=
  if s.chores.any (fun d => d.id == c.id) then .error .pkViol
  else .ok { s with chores := s.chores ++ [c] }

/-- A stored assignment matches the composite key
`(familyId, personId, weekStartISO, dayIndex, choreId)`. -/
def keyMatch (familyId personId weekStartISO : String) (dayIndex : Int) (choreId : String)
    (a : Assignment) : Bool :=
  a.family_id == familyId && a.person_id == personId && a.week_start_iso == weekStartISO &&
    a.day_index == dayIndex && a.chore_id == choreId

/-- Number of stored assignment rows with the given composite key. -/
def countKey (familyId personId weekStartISO : String) (dayIndex : Int) (choreId : String)
    (s : Store) : Nat :=
  (s.assignments.filter (keyMatch familyId personId weekStartISO dayIndex choreId)).length

/-- Insert into `assignments` (PRIMARY KEY id,
UNIQUE(family_id, person_id, week_start_iso, day_index, chore_id)). -/
def insertAssignment (s : Store) (a : Assignment) : Except DbErr Store :=
  if s.assignments.any (fun b => b.id == a.id) then .error .pkViol
  else if s.assignments.any
      (keyMatch a.family_id a.person_id a.week_start_iso a.day_index a.chore_id) then
    .error .uniqueViol
  else .ok { s with assignments := s.assignments ++ [a] }

/-! ## Shared helpers of the route layer -/

/-- JS falsiness of an optional string request field: absent or empty. -/
def falsyS (o : Option String) : Bool :=
  match o with
  | none => true
  | some s => s == ""

/-- JS `x || null` applied to an optional string (empty becomes null). -/
def jsOrNull (o : Option String) : Option String :=
  match o with
  | none => none
  | some s => if s == "" then none else some s

/-- Collapses every maximal run of whitespace to a single `-`; the
`flag` records whether the previous character was part of a run. -/
def collapseWsAux : Bool → List Char → List Char
  | _, [] => []
  | prevWs, c :: rest =>
    if c.isWhitespace then
      if prevWs then collapseWsAux true rest
      else '-' :: collapseWsAux true rest
    else c :: collapseWsAux false rest

/-- ASCII-faithful lowercasing over the character list (JS `toLowerCase`,
implemented at the character level so that it evaluates in the kernel). -/
def lowerS (s : String) : String := String.mk (s.data.map Char.toLower)

/-- Whitespace trimming from both ends (JS `trim`), at the character level. -/
def trimS (s : String) : String :=
  String.mk (((s.data.dropWhile Char.isWhitespace).reverse.dropWhile Char.isWhitespace).reverse)

/-- Embeds the JS id-slug idiom `s.toLowerCase().replace(/\s+/g, '-')`. -/
def slugify (s : String) : String :=
  String.mk (collapseWsAux false (s.data.map Char.toLower))

/-- Result of a route handler: HTTP status, JSON body, next store. -/
structure Out where
  status : Nat
  body : Json
  store : Store
deriving Repr

/-- Token claims attached by the middleware (`req.user`): admin tokens carry
`adminId` and `type = "admin"`, member tokens carry `personId` and
`type = "user"`; both carry `familyId`. -/
structure Claims where
  adminId : Option String
  personId : Option String
  familyId : String
  type : String
deriving Repr, DecidableEq

/-- Outcome of `jwt.verify`: either the decoded claims or an error
(bad signature, expired, malformed — all collapse to the error callback). -/
inductive VerifyResult where
  | ok : Claims → VerifyResult
  | err : VerifyResult
deriving Repr, DecidableEq

/-! ## Authentication middleware (backend/middleware/auth.js) -/

/-- Splits a string at every single space character (JS `split(' ')`). -/
def splitOnSpaceAux : List Char → List Char → List String
  | [], acc => [String.mk acc.reverse]
  | c :: cs, acc =>
    if c = ' ' then String.mk acc.reverse :: splitOnSpaceAux cs []
    else splitOnSpaceAux cs (c :: acc)

/-- JS `header.split(' ')`. -/
def splitOnSpace (s : String) : List String := splitOnSpaceAux s.data []

/-- The `authHeader && authHeader.split(' ')[1]` token extraction. -/
def bearerToken (authHeader : Option String) : Option String :=
  authHeader.bind (fun h => (splitOnSpace h).get? 1)

/-- Embeds `authenticateToken`: extracts the bearer token as
`authHeader && authHeader.split(' ')[1]`; a falsy token yields 401
`Access token required`; a token rejected by `jwt.verify` yields 403
`Invalid or expired token`; otherwise the claims are attached. -/
def authenticateToken (verify : String → VerifyResult) (authHeader : Option String) :
    Except (Nat × Json) Claims :=
  let token := bearerToken authHeader
  match token with
  | none => .error (401, errJson "Access token required")
  | some t =>
    if t == "" then .error (401, errJson "Access token required")
    else
      match verify t with
      | .err => .error (403, errJson "Invalid or expired token")
      | .ok u => .ok u

/-- Status of a middleware rejection, if any. -/
def authStatus (r : Except (Nat × Json) Claims) : Option Nat :=
  match r with
  | .error e => some e.1
  | .ok _ => none

/-! ## Row serialization (`res.json(row)` on a `SELECT *` row) -/

def personJson (p : Person) : Json :=
  Json.obj [("id", Json.str p.id), ("family_id", Json.str p.family_id),
    ("name", Json.str p.name), ("email", Json.str p.email),
    ("phone", match p.phone with | none => Json.null | some t => Json.str t),
    ("color", Json.str p.color)]

def choreJson (c : Chore) : Json :=
  Json.obj [("id", Json.str c.id), ("family_id", Json.str c.family_id),
    ("label", Json.str c.label)]

def assignmentJson (a : Assignment) : Json :=
  Json.obj [("id", Json.str a.id), ("family_id", Json.str a.family_id),
    ("person_id", Json.str a.person_id), ("chore_id", Json.str a.chore_id),
    ("week_start_iso", Json.str a.week_start_iso),
    ("day_index", Json.num a.day_index)]

/-! ## Family routes (backend/routes/families.js) -/

def defaultChoreIds : List (String × String) :=
  [("dishes", "Dishes"), ("trash", "Trash"), ("laundry", "Laundry"), ("vacuum", "Vacuum")]

structure CreateFamilyBody where
  name : Option String
  adminEmail : Option String
  adminPassword : Option String
deriving Repr, DecidableEq

/-- Embeds `POST /families`: validate the three fields, then inside one
transaction insert the family row, the admin row and the four default
chores; on any constraint violation the transaction rolls back and the
route answers 500 with the store unchanged.  On success the body is
`{ token, family: { id, name } }`.  `hash` models `bcrypt.hash` and `sign`
models `generateToken`; `now` models `Date.now().toString(36)`. -/
def createFamily (hash : String → String) (sign : Claims → String)
    (b : CreateFamilyBody) (now : String) (s : Store) : Out :=
  if falsyS b.name || falsyS b.adminEmail || falsyS b.adminPassword then
    ⟨400, errJson "Family name, admin email, and password required", s⟩
  else
    let name := b.name.getD ""
    let familyId := slugify name ++ "-" ++ now
    let adminId := "admin-" ++ now
    let passwordHash := hash (b.adminPassword.getD "")
    let txn : Except DbErr Store :=
      match insertFamily s ⟨familyId, name⟩ with
      | .error e => .error e
      | .ok s1 =>
        match insertAdmin s1 ⟨adminId, familyId, b.adminEmail.getD "", passwordHash⟩ with
        | .error e => .error e
        | .ok s2 =>
          match insertChore s2 ⟨"dishes-" ++ now, familyId, "Dishes"⟩ with
          | .error e => .error e
          | .ok s3 =>
            match insertChore s3 ⟨"trash-" ++ now, familyId, "Trash"⟩ with
            | .error e => .error e
            | .ok s4 =>
              match insertChore s4 ⟨"laundry-" ++ now, familyId, "Laundry"⟩ with
              | .error e => .error e
              | .ok s5 => insertChore s5 ⟨"vacuum-" ++ now, familyId, "Vacuum"⟩
    match txn with
    | .error _ => ⟨500, errJson "Internal server error", s⟩
    | .ok s6 =>
      let token := sign ⟨some adminId, none, familyId, "admin"⟩
      ⟨201, Json.obj [("token", Json.str token),
        ("family", Json.obj [("id", Json.str familyId), ("name", Json.str name)])], s6⟩

/-- Embeds `GET /families/:familyId` (family-mismatch check, then 404 if
absent, else the family plus its admins, people, chores, assignments). -/
def getFamily (u : Claims) (familyId : String) (s : Store) : Out :=
  if u.familyId ≠ familyId then ⟨403, errJson "Access denied", s⟩
  else
    match s.families.find? (fun f => f.id == familyId) with
    | none => ⟨404, errJson "Family not found", s⟩
    | some fam =>
      ⟨200, Json.obj [("id", Json.str fam.id), ("name", Json.str fam.name),
        ("admins", Json.arr ((s.admins.filter (fun a => a.family_id == familyId)).map
          (fun a => Json.obj [("id", Json.str a.id), ("email", Json.str a.email)]))),
        ("people", Json.arr ((s.people.filter (fun p => p.family_id == familyId)).map personJson)),
        ("chores", Json.arr ((s.chores.filter (fun c => c.family_id == familyId)).map choreJson)),
        ("assignments", Json.arr ((s.assignments.filter (fun a => a.family_id == familyId)).map
          assignmentJson))], s⟩

/-- Embeds `POST /families/:familyId/admins` (admin only): validate email
and password, insert the admin row; a UNIQUE violation answers 409. -/
def addAdmin (u : Claims) (familyId : String) (email password : Option String)
    (hash : String → String) (now : String) (s : Store) : Out :=
  if u.type ≠ "admin" ∨ u.familyId ≠ familyId then ⟨403, errJson "Admin access required", s⟩
  else if falsyS email || falsyS password then ⟨400, errJson "Email and password required", s⟩
  else
    let adminId := "admin-" ++ now
    match insertAdmin s ⟨adminId, familyId, email.getD "", hash (password.getD "")⟩ with
    | .ok s' =>
      ⟨201, Json.obj [("id", Json.str adminId), ("email", Json.str (email.getD "")),
        ("familyId", Json.str familyId)], s'⟩
    | .error .uniqueViol => ⟨409, errJson "Admin with this email already exists", s⟩
    | .error .pkViol => ⟨500, errJson "Internal server error", s⟩

/-- Embeds `DELETE /families/:familyId/admins/:adminId` (admin only): a
family with at most one admin answers 400 `Cannot remove the last admin`;
a target equal to the acting admin answers 400 `Cannot remove yourself`;
otherwise the row with that id and family is deleted. -/
def removeAdmin (u : Claims) (familyId adminId : String) (s : Store) : Out :=
  if u.type ≠ "admin" ∨ u.familyId ≠ familyId then ⟨403, errJson "Admin access required", s⟩
  else if (s.admins.filter (fun a => a.family_id == familyId)).length ≤ 1 then
    ⟨400, errJson "Cannot remove the last admin", s⟩
  else if u.adminId == some adminId then ⟨400, errJson "Cannot remove yourself", s⟩
  else
    ⟨200, msgJson "Admin removed successfully",
      { s with admins := s.admins.filter (fun a => !(a.id == adminId && a.family_id == familyId)) }⟩

/-! ## People routes (backend/routes/people.js) -/

/-- The round-robin palette of `getDefaultColorForIndex`. -/
def getDefaultColorForIndex (index : Nat) : String :=
  let palette := ["#f97373", "#f97316", "#eab308", "#22c55e", "#0ea5e9", "#a855f7"]
  palette.getD (index % palette.length) ""

/-- Embeds `GET /people/family/:familyId`. -/
def getPeople (u : Claims) (familyId : String) (s : Store) : Out :=
  if u.familyId ≠ familyId then ⟨403, errJson "Access denied", s⟩
  else ⟨200, Json.arr ((s.people.filter (fun p => p.family_id == familyId)).map personJson), s⟩

/-- Embeds `POST /people/family/:familyId` (admin only): name and email are
required (JS falsiness — no trimming); the color is taken round-robin from
the palette by the current people count; a UNIQUE violation answers 409. -/
def addPerson (u : Claims) (familyId : String) (name email phone : Option String)
    (now : String) (s : Store) : Out :=
  if u.type ≠ "admin" ∨ u.familyId ≠ familyId then ⟨403, errJson "Admin access required", s⟩
  else if falsyS name || falsyS email then ⟨400, errJson "Name and email required", s⟩
  else
    let nameV := name.getD ""
    let personCount := (s.people.filter (fun p => p.family_id == familyId)).length
    let color := getDefaultColorForIndex personCount
    let personId := slugify nameV ++ "-" ++ now
    let p : Person := ⟨personId, familyId, nameV, email.getD "", jsOrNull phone, color⟩
    match insertPerson s p with
    | .ok s' => ⟨201, personJson p, s'⟩
    | .error .uniqueViol => ⟨409, errJson "Person with this email already exists", s⟩
    | .error .pkViol => ⟨500, errJson "Internal server error", s⟩

/-- Embeds `PUT /people/:personId`: existence first (404), then the
admin/family check (403), then validation (400), then the update; an email
colliding with another person of the family answers 409. -/
def updatePerson (u : Claims) (personId : String) (name email phone color : Option String)
    (s : Store) : Out :=
  match s.people.find? (fun p => p.id == personId) with
  | none => ⟨404, errJson "Person not found", s⟩
  | some person =>
    if u.type ≠ "admin" ∨ u.familyId ≠ person.family_id then
      ⟨403, errJson "Admin access required", s⟩
    else if falsyS name || falsyS email then ⟨400, errJson "Name and email required", s⟩
    else if s.people.any (fun q => q.id != personId && q.family_id == person.family_id &&
        q.email == email.getD "") then
      ⟨409, errJson "Person with this email already exists", s⟩
    else
      let color' := match color with
        | none => person.color
        | some c => if c == "" then person.color else c
      let p' : Person := { person with
        name := name.getD ""
        email := email.getD ""
        phone := jsOrNull phone
        color := color' }
      ⟨200, personJson p',
        { s with people := s.people.map (fun q => if q.id == personId then p' else q) }⟩

/-- Embeds `DELETE /people/:personId`: existence first (404), then the
admin/family check (403), then the delete, which cascades to the person's
assignments (`ON DELETE CASCADE`). -/
def deletePerson (u : Claims) (personId : String) (s : Store) : Out :=
  match s.people.find? (fun p => p.id == personId) with
  | none => ⟨404, errJson "Person not found", s⟩
  | some person =>
    if u.type ≠ "admin" ∨ u.familyId ≠ person.family_id then
      ⟨403, errJson "Admin access required", s⟩
    else
      ⟨200, msgJson "Person deleted successfully",
        { s with
          people := s.people.filter (fun q => q.id != personId)
          assignments := s.assignments.filter (fun a => a.person_id != personId) }⟩

/-! ## Chore routes (backend/routes/chores.js) -/

/-- Embeds `GET /chores/family/:familyId`. -/
def getChores (u : Claims) (familyId : String) (s : Store) : Out :=
  if u.familyId ≠ familyId then ⟨403, errJson "Access denied", s⟩
  else ⟨200, Json.arr ((s.chores.filter (fun c => c.family_id == familyId)).map choreJson), s⟩

/-- Embeds `POST /chores/family/:familyId` (admin only): the label must be
present and nonblank after trimming; duplicate labels are rejected 409 by a
case-insensitive lookup before the insert. -/
def addChore (u : Claims) (familyId : String) (label : Option String) (now : String)
    (s : Store) : Out :=
  if u.type ≠ "admin" ∨ u.familyId ≠ familyId then ⟨403, errJson "Admin access required", s⟩
  else
    match label with
    | none => ⟨400, errJson "Chore label required", s⟩
    | some l =>
      if trimS l == "" then ⟨400, errJson "Chore label required", s⟩
      else
        let trimmedLabel := trimS l
        if s.chores.any (fun c => c.family_id == familyId &&
            lowerS c.label == lowerS trimmedLabel) then
          ⟨409, errJson "Chore with this label already exists", s⟩
        else
          let choreId := slugify trimmedLabel ++ "-" ++ now
          let c : Chore := ⟨choreId, familyId, trimmedLabel⟩
          match insertChore s c with
          | .ok s' => ⟨201, choreJson c, s'⟩
          | .error _ => ⟨500, errJson "Internal server error", s⟩

/-- Embeds `PUT /chores/:choreId`: existence first (404), then the
admin/family check (403), then label validation (400), then the
case-insensitive duplicate check excluding the chore itself (409). -/
def updateChore (u : Claims) (choreId : String) (label : Option String) (s : Store) : Out :=
  match s.chores.find? (fun c => c.id == choreId) with
  | none => ⟨404, errJson "Chore not found", s⟩
  | some chore =>
    if u.type ≠ "admin" ∨ u.familyId ≠ chore.family_id then
      ⟨403, errJson "Admin access required", s⟩
    else
      match label with
      | none => ⟨400, errJson "Chore label required", s⟩
      | some l =>
        if trimS l == "" then ⟨400, errJson "Chore label required", s⟩
        else
          let trimmedLabel := trimS l
          if s.chores.any (fun c => c.family_id == chore.family_id &&
              lowerS c.label == lowerS trimmedLabel && c.id != choreId) then
            ⟨409, errJson "Chore with this label already exists", s⟩
          else
            let c' : Chore := { chore with label := trimmedLabel }
            ⟨200, choreJson c',
              { s with chores := s.chores.map (fun c => if c.id == choreId then c' else c) }⟩

/-- Embeds `DELETE /chores/:choreId`: existence first (404), then the
admin/family check (403), then the delete, which cascades to the chore's
assignments (`ON DELETE CASCADE`). -/
def deleteChore (u : Claims) (choreId : String) (s : Store) : Out :=
  match s.chores.find? (fun c => c.id == choreId) with
  | none => ⟨404, errJson "Chore not found", s⟩
  | some chore =>
    if u.type ≠ "admin" ∨ u.familyId ≠ chore.family_id then
      ⟨403, errJson "Admin access required", s⟩
    else
      ⟨200, msgJson "Chore deleted successfully",
        { s with
          chores := s.chores.filter (fun c => c.id != choreId)
          assignments := s.assignments.filter (fun a => a.chore_id != choreId) }⟩

/-! ## Assignment routes (backend/routes/assignments.js) -/

/-- Embeds `GET /assignments/family/:familyId/week/:weekStartISO`. -/
def getAssignmentsWeek (u : Claims) (familyId weekStartISO : String) (s : Store) : Out :=
  if u.familyId ≠ familyId then ⟨403, errJson "Access denied", s⟩
  else
    ⟨200, Json.arr ((s.assignments.filter (fun a => a.family_id == familyId &&
      a.week_start_iso == weekStartISO)).map assignmentJson), s⟩

/-- Id generated for a single-day assignment insert. -/
def assignmentIdFor (personId weekStartISO : String) (dayIndex : Int) (choreId now : String) :
    String :=
  personId ++ "-" ++ weekStartISO ++ "-" ++ toString dayIndex ++ "-" ++ choreId ++ "-" ++ now

/-- Embeds `POST /assignments/family/:familyId` (admin only): validation
(`dayIndex === undefined` only — a present 0 passes), person and chore
looked up within the family (404), a pre-check on the composite key (409),
then the insert; a UNIQUE race at insert time also answers 409. -/
def addAssignment (u : Claims) (familyId : String)
    (personId choreId weekStartISO : Option String) (dayIndex : Option Int)
    (now : String) (s : Store) : Out :=
  if u.type ≠ "admin" ∨ u.familyId ≠ familyId then ⟨403, errJson "Admin access required", s⟩
  else if falsyS personId || falsyS choreId || falsyS weekStartISO || dayIndex == none then
    ⟨400, errJson "personId, choreId, weekStartISO, and dayIndex required", s⟩
  else
    let pid := personId.getD ""
    let cid := choreId.getD ""
    let w := weekStartISO.getD ""
    let di := dayIndex.getD 0
    if !(s.people.any (fun p => p.id == pid && p.family_id == familyId)) then
      ⟨404, errJson "Person not found", s⟩
    else if !(s.chores.any (fun c => c.id == cid && c.family_id == familyId)) then
      ⟨404, errJson "Chore not found", s⟩
    else if s.assignments.any (keyMatch familyId pid w di cid) then
      ⟨409, errJson "Assignment already exists", s⟩
    else
      let a : Assignment := ⟨assignmentIdFor pid w di cid now, familyId, pid, cid, w, di⟩
      match insertAssignment s a with
      | .ok s' => ⟨201, assignmentJson a, s'⟩
      | .error .uniqueViol => ⟨409, errJson "Assignment already exists", s⟩
      | .error .pkViol => ⟨500, errJson "Internal server error", s⟩

/-- Embeds `DELETE /assignments/:assignmentId`: existence first (404), then
the admin/family check (403), then the delete. -/
def deleteAssignment (u : Claims) (assignmentId : String) (s : Store) : Out :=
  match s.assignments.find? (fun a => a.id == assignmentId) with
  | none => ⟨404, errJson "Assignment not found", s⟩
  | some assignment =>
    if u.type ≠ "admin" ∨ u.familyId ≠ assignment.family_id then
      ⟨403, errJson "Admin access required", s⟩
    else
      ⟨200, msgJson "Assignment deleted successfully",
        { s with assignments := s.assignments.filter (fun a => a.id != assignmentId) }⟩

/-- Id generated inside the whole-week loop for day `dayIndex` (the loop
appends the day index once more after the timestamp token). -/
def weekAssignmentIdFor (personId weekStartISO : String) (dayIndex : Nat)
    (choreId now : String) : String :=
  personId ++ "-" ++ weekStartISO ++ "-" ++ toString dayIndex ++ "-" ++ choreId ++ "-" ++ now ++
    "-" ++ toString dayIndex

/-- The `for (let dayIndex = 0; dayIndex < 7; ...)` loop of the whole-week
route: skip a day whose composite key already exists, insert otherwise and
collect the created row.  A constraint violation escapes to the `catch`
(500) with the rows inserted so far already committed — the loop runs in no
transaction. -/
def weekLoop (familyId pid cid w now : String) :
    List Nat → Store → List Assignment → Except Store (List Assignment × Store)
  | [], s, created => .ok (created, s)
  | d :: ds, s, created =>
    if s.assignments.any (keyMatch familyId pid w d cid) then
      weekLoop familyId pid cid w now ds s created
    else
      let a : Assignment := ⟨weekAssignmentIdFor pid w d cid now, familyId, pid, cid, w, d⟩
      match insertAssignment s a with
      | .ok s' => weekLoop familyId pid cid w now ds s' (created ++ [a])
      | .error _ => .error s

/-- Embeds `POST /assignments/family/:familyId/week` (admin only): after
validation and the person/chore lookups, one pass over day indices 0..6
inserting the missing days and silently skipping the present ones; the
response is the array of newly created assignments. -/
def addWeekAssignments (u : Claims) (familyId : String)
    (personId choreId weekStartISO : Option String) (now : String) (s : Store) : Out :=
  if u.type ≠ "admin" ∨ u.familyId ≠ familyId then ⟨403, errJson "Admin access required", s⟩
  else if falsyS personId || falsyS choreId || falsyS weekStartISO then
    ⟨400, errJson "personId, choreId, and weekStartISO required", s⟩
  else
    let pid := personId.getD ""
    let cid := choreId.getD ""
    let w := weekStartISO.getD ""
    if !(s.people.any (fun p => p.id == pid && p.family_id == familyId)) then
      ⟨404, errJson "Person not found", s⟩
    else if !(s.chores.any (fun c => c.id == cid && c.family_id == familyId)) then
      ⟨404, errJson "Chore not found", s⟩
    else
      match weekLoop familyId pid cid w now (List.range 7) s [] with
      | .ok (created, s') => ⟨201, Json.arr (created.map assignmentJson), s'⟩
      | .error s' => ⟨500, errJson "Internal server error", s'⟩

/-- The rows that one run of the week loop creates on store `s` for the
day indices `ds`: one row per day whose composite key is absent. -/
def weekCreated (fid pid cid w now : String) (ds : List Nat) (s : Store) :
    List Assignment :=
  (ds.filter (fun (d : Nat) =>
    !(s.assignments.any (keyMatch fid pid w (d : Int) cid)))).map
    (fun (d : Nat) => ⟨weekAssignmentIdFor pid w d cid now, fid, pid, cid, w, (d : Int)⟩)

/-! ## Claim C2: middleware rejection statuses -/

/-- C2 is false as stated: a syntactically present but invalid (or expired)
bearer token is rejected by `authenticateToken` with status 403, not 401 —
only the missing-token case yields 401. -/
theorem C2_counterexample :
    authenticateToken (fun _ => VerifyResult.err) (some "Bearer forged") =
      Except.error (403, errJson "Invalid or expired token") ∧ 403 ≠ 401 :=
  ⟨rfl, by decide⟩

/-- C2 as amended: a missing (or falsy) bearer token is rejected 401, an
invalid or expired token is rejected 403, and a verified token passes its
claims through. -/
theorem C2_token_rejection (verify : String → VerifyResult) (h : Option String) :
    (bearerToken h = none ∨ bearerToken h = some "" →
      authenticateToken verify h = Except.error (401, errJson "Access token required")) ∧
    (∀ t, bearerToken h = some t → t ≠ "" → verify t = VerifyResult.err →
      authenticateToken verify h = Except.error (403, errJson "Invalid or expired token")) ∧
    (∀ t u, bearerToken h = some t → t ≠ "" → verify t = VerifyResult.ok u →
      authenticateToken verify h = Except.ok u) := by
  refine ⟨?_, ?_, ?_⟩
  · rintro (hb | hb) <;> simp [authenticateToken, hb]
  · intro t hb ht hv
    simp [authenticateToken, hb, ht, hv]
  · intro t u hb ht hv
    simp [authenticateToken, hb, ht, hv]

/-- Witness for C2 at a concrete header carrying a token the verifier
rejects. -/
theorem C2_token_rejection_witness :
    bearerToken (some "Bearer forged") = some "forged" ∧
    authenticateToken (fun _ => VerifyResult.err) (some "Bearer forged") =
      Except.error (403, errJson "Invalid or expired token") :=
  ⟨rfl, (C2_token_rejection (fun _ => VerifyResult.err) (some "Bearer forged")).2.1 "forged"
    rfl (by decide) rfl⟩

/-! ## Claim C6: week-start computation -/

/-- C6: `getWeekStart` returns the Sunday at or before the given date with
the time truncated to midnight (and it is the unique such Sunday); any two
dates lying in the same Sunday-to-Saturday span receive the identical week
start; and `getWeekStart` is idempotent. -/
theorem C6_weekStart_correct :
    (∀ d : JSDate,
      (getWeekStart d).msOfDay = 0 ∧
      jsGetDay (getWeekStart d).day = 0 ∧
      (getWeekStart d).day ≤ d.day ∧
      d.day < (getWeekStart d).day + 7 ∧
      ∀ z : Int, jsGetDay z = 0 → z ≤ d.day → d.day < z + 7 → z = (getWeekStart d).day) ∧
    (∀ d₁ d₂ : JSDate, ∀ z : Int, jsGetDay z = 0 →
      z ≤ d₁.day → d₁.day < z + 7 → z ≤ d₂.day → d₂.day < z + 7 →
      getWeekStart d₁ = getWeekStart d₂) ∧
    (∀ d : JSDate, getWeekStart (getWeekStart d) = getWeekStart d) := by
  refine ⟨fun d => ⟨rfl, ?_, ?_, ?_, ?_⟩, ?_, ?_⟩
  · simp only [getWeekStart, jsGetDay]; omega
  · simp only [getWeekStart, jsGetDay]; omega
  · simp only [getWeekStart, jsGetDay]; omega
  · intro z hz h1 h2
    simp only [getWeekStart, jsGetDay] at *
    omega
  · intro d₁ d₂ z hz ha hb hc hd
    simp only [getWeekStart, jsGetDay, JSDate.mk.injEq, and_true] at *
    omega
  · intro d
    simp only [getWeekStart, jsGetDay, JSDate.mk.injEq, and_true]
    omega

/-- Witness for C6: two dates inside the week of Sunday 2026-02-15
(day numbers 20500 and 20505, the latter with a nonzero time of day) share
the identical week start. -/
theorem C6_weekStart_correct_witness :
    jsGetDay 20499 = 0 ∧ getWeekStart ⟨20500, 55⟩ = getWeekStart ⟨20505, 86399999⟩ :=
  ⟨by decide, C6_weekStart_correct.2.1 ⟨20500, 55⟩ ⟨20505, 86399999⟩ 20499 (by decide)
    (by decide) (by decide) (by decide) (by decide)⟩

/-! ## Claim C9: required-field validation -/

/-- C9 is false as stated: a whitespace-only person name is accepted, not
rejected — `POST /people/family/:familyId` checks only JS falsiness and
never trims, so the request with name `" "` creates the person and answers
201. -/
theorem C9_counterexample :
    addPerson ⟨some "a1", none, "f1", "admin"⟩ "f1" (some " ") (some "jo@x.com") none "t0"
        ⟨[⟨"f1", "Smith Family"⟩], [⟨"a1", "f1", "a@x.com", "h"⟩], [], [], []⟩ =
      ⟨201, personJson ⟨"--t0", "f1", " ", "jo@x.com", none, "#f97373"⟩,
        ⟨[⟨"f1", "Smith Family"⟩], [⟨"a1", "f1", "a@x.com", "h"⟩],
          [⟨"--t0", "f1", " ", "jo@x.com", none, "#f97373"⟩], [], []⟩⟩ :=
  rfl

/-- C9 as amended: a chore label that is missing or blank after trimming is
rejected 400 with the store unchanged (create and update); a person name or
email that is missing or the empty string is rejected 400 with the store
unchanged (create and update) — but person fields are not trimmed, so a
whitespace-only person name passes validation. -/
theorem C9_validation (u : Claims) :
    (∀ fid label now s, u.type = "admin" → u.familyId = fid →
      (label = none ∨ ∃ l, label = some l ∧ trimS l = "") →
      addChore u fid label now s = ⟨400, errJson "Chore label required", s⟩) ∧
    (∀ cid label s chore, s.chores.find? (fun c => c.id == cid) = some chore →
      u.type = "admin" → u.familyId = chore.family_id →
      (label = none ∨ ∃ l, label = some l ∧ trimS l = "") →
      updateChore u cid label s = ⟨400, errJson "Chore label required", s⟩) ∧
    (∀ fid name email phone now s, u.type = "admin" → u.familyId = fid →
      (falsyS name || falsyS email) = true →
      addPerson u fid name email phone now s = ⟨400, errJson "Name and email required", s⟩) ∧
    (∀ pid name email phone color s person,
      s.people.find? (fun p => p.id == pid) = some person →
      u.type = "admin" → u.familyId = person.family_id →
      (falsyS name || falsyS email) = true →
      updatePerson u pid name email phone color s =
        ⟨400, errJson "Name and email required", s⟩) := by
  refine ⟨?_, ?_, ?_, ?_⟩
  · rintro fid label now s hty hfam (rfl | ⟨l, rfl, hl⟩)
    · simp [addChore, hty, hfam]
    · simp [addChore, hty, hfam, hl]
  · rintro cid label s chore hfind hty hfam (rfl | ⟨l, rfl, hl⟩)
    · simp [updateChore, hfind, hty, hfam]
    · simp [updateChore, hfind, hty, hfam, hl]
  · intro fid name email phone now s hty hfam hfe
    simp [addPerson, hty, hfam, hfe]
  · intro pid name email phone color s person hfind hty hfam hfe
    simp [updatePerson, hfind, hty, hfam, hfe]

/-- Witness for C9: a blank chore label and a missing person email are both
rejected 400 on a concrete store. -/
theorem C9_validation_witness :
    addChore ⟨some "a1", none, "f1", "admin"⟩ "f1" (some "   ") "t0"
        ⟨[⟨"f1", "Fam"⟩], [], [], [], []⟩ =
      ⟨400, errJson "Chore label required", ⟨[⟨"f1", "Fam"⟩], [], [], [], []⟩⟩ ∧
    addPerson ⟨some "a1", none, "f1", "admin"⟩ "f1" (some "Jo") none none "t0"
        ⟨[⟨"f1", "Fam"⟩], [], [], [], []⟩ =
      ⟨400, errJson "Name and email required", ⟨[⟨"f1", "Fam"⟩], [], [], [], []⟩⟩ :=
  ⟨(C9_validation ⟨some "a1", none, "f1", "admin"⟩).1 "f1" (some "   ") "t0"
      ⟨[⟨"f1", "Fam"⟩], [], [], [], []⟩ rfl rfl (Or.inr ⟨"   ", rfl, rfl⟩),
    (C9_validation ⟨some "a1", none, "f1", "admin"⟩).2.2.1 "f1" (some "Jo") none none "t0"
      ⟨[⟨"f1", "Fam"⟩], [], [], [], []⟩ rfl rfl rfl⟩

/-! ## Claim C5: admin-removal guards -/

/-- C5 is false as stated: when the acting admin of a single-admin family
targets themselves, the route answers with the last-admin error, not the
self-removal error — the last-admin check runs first. -/
theorem C5_counterexample :
    removeAdmin ⟨some "a1", none, "f1", "admin"⟩ "f1" "a1"
        ⟨[⟨"f1", "Fam"⟩], [⟨"a1", "f1", "a@x.com", "h"⟩], [], [], []⟩ =
      ⟨400, errJson "Cannot remove the last admin",
        ⟨[⟨"f1", "Fam"⟩], [⟨"a1", "f1", "a@x.com", "h"⟩], [], [], []⟩⟩ ∧
    errJson "Cannot remove the last admin" ≠ errJson "Cannot remove yourself" := by
  refine ⟨rfl, ?_⟩
  simp [errJson]

/-- C5 as amended: a removal in a family with exactly one admin fails 400
with the last-admin error; a self-removal in a family with at least two
admins fails 400 with the self-removal error; in both cases no admin is
deleted (when both conditions hold, the last-admin error takes
precedence). -/
theorem C5_admin_removal_guards (u : Claims) (fid target : String) (s : Store)
    (hty : u.type = "admin") (hfam : u.familyId = fid) :
    ((s.admins.filter (fun a => a.family_id == fid)).length = 1 →
      removeAdmin u fid target s = ⟨400, errJson "Cannot remove the last admin", s⟩) ∧
    (2 ≤ (s.admins.filter (fun a => a.family_id == fid)).length → u.adminId = some target →
      removeAdmin u fid target s = ⟨400, errJson "Cannot remove yourself", s⟩) := by
  constructor
  · intro hcount
    simp [removeAdmin, hty, hfam, hcount]
  · intro hcount hself
    simp [removeAdmin, hty, hfam, hself]
    omega

/-- Witness for C5: in a concrete two-admin family, the acting admin's
attempt to remove itself fails with the self-removal error and the store is
unchanged. -/
theorem C5_admin_removal_guards_witness :
    removeAdmin ⟨some "a1", none, "f1", "admin"⟩ "f1" "a1"
        ⟨[⟨"f1", "Fam"⟩], [⟨"a1", "f1", "a@x.com", "h"⟩, ⟨"a2", "f1", "b@x.com", "h"⟩],
          [], [], []⟩ =
      ⟨400, errJson "Cannot remove yourself",
        ⟨[⟨"f1", "Fam"⟩], [⟨"a1", "f1", "a@x.com", "h"⟩, ⟨"a2", "f1", "b@x.com", "h"⟩],
          [], [], []⟩⟩ :=
  (C5_admin_removal_guards ⟨some "a1", none, "f1", "admin"⟩ "f1" "a1"
    ⟨[⟨"f1", "Fam"⟩], [⟨"a1", "f1", "a@x.com", "h"⟩, ⟨"a2", "f1", "b@x.com", "h"⟩], [], [], []⟩
    rfl rfl).2 (by decide) rfl

/-! ## Claim C10: existence is checked before authorization on by-id routes -/

/-- C10: on the by-id routes (`PUT/DELETE /chores/:id`,
`PUT/DELETE /people/:id`, `DELETE /assignments/:id`) the existence lookup
runs before the authorization check: an id present in no family yields 404
for every authenticated principal, while an existing record of a different
family yields 403 — so a principal can distinguish existing from
nonexistent ids of other families. -/
theorem C10_existence_before_authorization (u : Claims) (s : Store) :
    (∀ cid label, s.chores.find? (fun c => c.id == cid) = none →
      updateChore u cid label s = ⟨404, errJson "Chore not found", s⟩) ∧
    (∀ cid label chore, s.chores.find? (fun c => c.id == cid) = some chore →
      chore.family_id ≠ u.familyId →
      updateChore u cid label s = ⟨403, errJson "Admin access required", s⟩) ∧
    (∀ cid, s.chores.find? (fun c => c.id == cid) = none →
      deleteChore u cid s = ⟨404, errJson "Chore not found", s⟩) ∧
    (∀ cid chore, s.chores.find? (fun c => c.id == cid) = some chore →
      chore.family_id ≠ u.familyId →
      deleteChore u cid s = ⟨403, errJson "Admin access required", s⟩) ∧
    (∀ pid name email phone color, s.people.find? (fun p => p.id == pid) = none →
      updatePerson u pid name email phone color s = ⟨404, errJson "Person not found", s⟩) ∧
    (∀ pid name email phone color person,
      s.people.find? (fun p => p.id == pid) = some person →
      person.family_id ≠ u.familyId →
      updatePerson u pid name email phone color s =
        ⟨403, errJson "Admin access required", s⟩) ∧
    (∀ pid, s.people.find? (fun p => p.id == pid) = none →
      deletePerson u pid s = ⟨404, errJson "Person not found", s⟩) ∧
    (∀ pid person, s.people.find? (fun p => p.id == pid) = some person →
      person.family_id ≠ u.familyId →
      deletePerson u pid s = ⟨403, errJson "Admin access required", s⟩) ∧
    (∀ aid, s.assignments.find? (fun a => a.id == aid) = none →
      deleteAssignment u aid s = ⟨404, errJson "Assignment not found", s⟩) ∧
    (∀ aid assignment, s.assignments.find? (fun a => a.id == aid) = some assignment →
      assignment.family_id ≠ u.familyId →
      deleteAssignment u aid s = ⟨403, errJson "Admin access required", s⟩) := by
  refine ⟨?_, ?_, ?_, ?_, ?_, ?_, ?_, ?_, ?_, ?_⟩
  · intro cid label hfind; simp [updateChore, hfind]
  · intro cid label chore hfind hne
    simp only [updateChore, hfind]
    rw [if_pos (Or.inr (Ne.symm hne))]
  · intro cid hfind; simp [deleteChore, hfind]
  · intro cid chore hfind hne
    simp only [deleteChore, hfind]
    rw [if_pos (Or.inr (Ne.symm hne))]
  · intro pid name email phone color hfind; simp [updatePerson, hfind]
  · intro pid name email phone color person hfind hne
    simp only [updatePerson, hfind]
    rw [if_pos (Or.inr (Ne.symm hne))]
  · intro pid hfind; simp [deletePerson, hfind]
  · intro pid person hfind hne
    simp only [deletePerson, hfind]
    rw [if_pos (Or.inr (Ne.symm hne))]
  · intro aid hfind; simp [deleteAssignment, hfind]
  · intro aid assignment hfind hne
    simp only [deleteAssignment, hfind]
    rw [if_pos (Or.inr (Ne.symm hne))]

/-- Witness for C10: against a concrete store owned by family `f1`, an
admin of family `f2` gets 404 for a nonexistent chore id and 403 for an
existing chore of family `f1`. -/
theorem C10_existence_before_authorization_witness :
    deleteChore ⟨some "a2", none, "f2", "admin"⟩ "ghost"
        ⟨[⟨"f1", "Fam"⟩], [], [], [⟨"dishes-t0", "f1", "Dishes"⟩], []⟩ =
      ⟨404, errJson "Chore not found",
        ⟨[⟨"f1", "Fam"⟩], [], [], [⟨"dishes-t0", "f1", "Dishes"⟩], []⟩⟩ ∧
    deleteChore ⟨some "a2", none, "f2", "admin"⟩ "dishes-t0"
        ⟨[⟨"f1", "Fam"⟩], [], [], [⟨"dishes-t0", "f1", "Dishes"⟩], []⟩ =
      ⟨403, errJson "Admin access required",
        ⟨[⟨"f1", "Fam"⟩], [], [], [⟨"dishes-t0", "f1", "Dishes"⟩], []⟩⟩ :=
  ⟨(C10_existence_before_authorization ⟨some "a2", none, "f2", "admin"⟩
      ⟨[⟨"f1", "Fam"⟩], [], [], [⟨"dishes-t0", "f1", "Dishes"⟩], []⟩).2.2.1 "ghost" rfl,
    (C10_existence_before_authorization ⟨some "a2", none, "f2", "admin"⟩
      ⟨[⟨"f1", "Fam"⟩], [], [], [⟨"dishes-t0", "f1", "Dishes"⟩], []⟩).2.2.2.1 "dishes-t0"
      ⟨"dishes-t0", "f1", "Dishes"⟩ rfl (by decide)⟩

/-! ## Claim C1: authorization guard (family match, admin role) -/

/-- C1: every route whose path names a family rejects a valid token of a
different family with 403 and an unchanged store; every mutating route
(create/update/delete of admins, people, chores, assignments) additionally
rejects with 403 and an unchanged store unless the token's type is admin
and its family matches the family owning the addressed resource (for by-id
routes, the resource is assumed to exist — see C10 for the nonexistent
case). -/
theorem C1_authorization_guard (u : Claims) (s : Store) :
    (∀ fid, u.familyId ≠ fid →
      getFamily u fid s = ⟨403, errJson "Access denied", s⟩) ∧
    (∀ fid, u.familyId ≠ fid →
      getPeople u fid s = ⟨403, errJson "Access denied", s⟩) ∧
    (∀ fid, u.familyId ≠ fid →
      getChores u fid s = ⟨403, errJson "Access denied", s⟩) ∧
    (∀ fid w, u.familyId ≠ fid →
      getAssignmentsWeek u fid w s = ⟨403, errJson "Access denied", s⟩) ∧
    (∀ fid email password hash now, u.type ≠ "admin" ∨ u.familyId ≠ fid →
      addAdmin u fid email password hash now s = ⟨403, errJson "Admin access required", s⟩) ∧
    (∀ fid target, u.type ≠ "admin" ∨ u.familyId ≠ fid →
      removeAdmin u fid target s = ⟨403, errJson "Admin access required", s⟩) ∧
    (∀ fid name email phone now, u.type ≠ "admin" ∨ u.familyId ≠ fid →
      addPerson u fid name email phone now s = ⟨403, errJson "Admin access required", s⟩) ∧
    (∀ fid label now, u.type ≠ "admin" ∨ u.familyId ≠ fid →
      addChore u fid label now s = ⟨403, errJson "Admin access required", s⟩) ∧
    (∀ fid pid cid w di now, u.type ≠ "admin" ∨ u.familyId ≠ fid →
      addAssignment u fid pid cid w di now s = ⟨403, errJson "Admin access required", s⟩) ∧
    (∀ fid pid cid w now, u.type ≠ "admin" ∨ u.familyId ≠ fid →
      addWeekAssignments u fid pid cid w now s =
        ⟨403, errJson "Admin access required", s⟩) ∧
    (∀ pid name email phone color person,
      s.people.find? (fun p => p.id == pid) = some person →
      u.type ≠ "admin" ∨ u.familyId ≠ person.family_id →
      updatePerson u pid name email phone color s =
        ⟨403, errJson "Admin access required", s⟩) ∧
    (∀ pid person, s.people.find? (fun p => p.id == pid) = some person →
      u.type ≠ "admin" ∨ u.familyId ≠ person.family_id →
      deletePerson u pid s = ⟨403, errJson "Admin access required", s⟩) ∧
    (∀ cid label chore, s.chores.find? (fun c => c.id == cid) = some chore →
      u.type ≠ "admin" ∨ u.familyId ≠ chore.family_id →
      updateChore u cid label s = ⟨403, errJson "Admin access required", s⟩) ∧
    (∀ cid chore, s.chores.find? (fun c => c.id == cid) = some chore →
      u.type ≠ "admin" ∨ u.familyId ≠ chore.family_id →
      deleteChore u cid s = ⟨403, errJson "Admin access required", s⟩) ∧
    (∀ aid assignment, s.assignments.find? (fun a => a.id == aid) = some assignment →
      u.type ≠ "admin" ∨ u.familyId ≠ assignment.family_id →
      deleteAssignment u aid s = ⟨403, errJson "Admin access required", s⟩) := by
  refine ⟨?_, ?_, ?_, ?_, ?_, ?_, ?_, ?_, ?_, ?_, ?_, ?_, ?_, ?_, ?_⟩
  · intro fid hne; simp only [getFamily]; rw [if_pos hne]
  · intro fid hne; simp only [getPeople]; rw [if_pos hne]
  · intro fid hne; simp only [getChores]; rw [if_pos hne]
  · intro fid w hne; simp only [getAssignmentsWeek]; rw [if_pos hne]
  · intro fid email password hash now hne; simp only [addAdmin]; rw [if_pos hne]
  · intro fid target hne; simp only [removeAdmin]; rw [if_pos hne]
  · intro fid name email phone now hne; simp only [addPerson]; rw [if_pos hne]
  · intro fid label now hne; simp only [addChore]; rw [if_pos hne]
  · intro fid pid cid w di now hne; simp only [addAssignment]; rw [if_pos hne]
  · intro fid pid cid w now hne; simp only [addWeekAssignments]; rw [if_pos hne]
  · intro pid name email phone color person hfind hne
    simp only [updatePerson, hfind]; rw [if_pos hne]
  · intro pid person hfind hne
    simp only [deletePerson, hfind]; rw [if_pos hne]
  · intro cid label chore hfind hne
    simp only [updateChore, hfind]; rw [if_pos hne]
  · intro cid chore hfind hne
    simp only [deleteChore, hfind]; rw [if_pos hne]
  · intro aid assignment hfind hne
    simp only [deleteAssignment, hfind]; rw [if_pos hne]

/-- Witness for C1: against a concrete store of family `f1`, a cross-family
read is rejected 403 with the store unchanged, and a same-family member
(non-admin) mutation is rejected 403 with the store unchanged. -/
theorem C1_authorization_guard_witness :
    getFamily ⟨some "a2", none, "f2", "admin"⟩ "f1"
        ⟨[⟨"f1", "Fam"⟩], [], [], [], []⟩ =
      ⟨403, errJson "Access denied", ⟨[⟨"f1", "Fam"⟩], [], [], [], []⟩⟩ ∧
    addChore ⟨none, some "jo", "f1", "user"⟩ "f1" (some "Mop") "t0"
        ⟨[⟨"f1", "Fam"⟩], [], [], [], []⟩ =
      ⟨403, errJson "Admin access required", ⟨[⟨"f1", "Fam"⟩], [], [], [], []⟩⟩ :=
  ⟨(C1_authorization_guard ⟨some "a2", none, "f2", "admin"⟩
      ⟨[⟨"f1", "Fam"⟩], [], [], [], []⟩).1 "f1" (by decide),
    (C1_authorization_guard ⟨none, some "jo", "f1", "user"⟩
      ⟨[⟨"f1", "Fam"⟩], [], [], [], []⟩).2.2.2.2.2.2.2.1 "f1" (some "Mop") "t0"
      (Or.inl (by decide))⟩

/-! ## Claim C3: duplicate single-assignment creation -/

/-- C3: for an admin of the family, two identical single-assignment
creation requests with the same `(personId, choreId, weekStartISO,
dayIndex)` leave exactly one row with that composite key: the first call
answers 201 and inserts the row, the second answers 409 and leaves the
store unchanged. -/
theorem C3_duplicate_assignment (u : Claims) (fid pid cid w : String) (di : Int)
    (now₁ now₂ : String) (s : Store)
    (hty : u.type = "admin") (hfam : u.familyId = fid)
    (hpid : pid ≠ "") (hcid : cid ≠ "") (hw : w ≠ "")
    (hp : s.people.any (fun p => p.id == pid && p.family_id == fid) = true)
    (hc : s.chores.any (fun c => c.id == cid && c.family_id == fid) = true)
    (hkey : s.assignments.any (keyMatch fid pid w di cid) = false)
    (hfresh : s.assignments.any
      (fun b => b.id == assignmentIdFor pid w di cid now₁) = false) :
    (addAssignment u fid (some pid) (some cid) (some w) (some di) now₁ s).status = 201 ∧
    countKey fid pid w di cid
      (addAssignment u fid (some pid) (some cid) (some w) (some di) now₁ s).store = 1 ∧
    addAssignment u fid (some pid) (some cid) (some w) (some di) now₂
        (addAssignment u fid (some pid) (some cid) (some w) (some di) now₁ s).store =
      ⟨409, errJson "Assignment already exists",
        (addAssignment u fid (some pid) (some cid) (some w) (some di) now₁ s).store⟩ := by
  have hkm : keyMatch fid pid w di cid
      ⟨assignmentIdFor pid w di cid now₁, fid, pid, cid, w, di⟩ = true := by
    simp [keyMatch]
  have h1 : addAssignment u fid (some pid) (some cid) (some w) (some di) now₁ s =
      ⟨201, assignmentJson ⟨assignmentIdFor pid w di cid now₁, fid, pid, cid, w, di⟩,
        { s with assignments :=
          s.assignments ++ [⟨assignmentIdFor pid w di cid now₁, fid, pid, cid, w, di⟩] }⟩ := by
    simp [addAssignment, hty, hfam, falsyS, hpid, hcid, hw, hp, hc, hkey,
      insertAssignment, hfresh]
  rw [h1]
  have hnil : s.assignments.filter (keyMatch fid pid w di cid) = [] := by
    rw [List.filter_eq_nil_iff]
    intro a ha
    simpa using List.any_eq_false.mp hkey a ha
  refine ⟨rfl, ?_, ?_⟩
  · simp [countKey, List.filter_append, hnil, hkm]
  · have hkey2 : (s.assignments ++
        [(⟨assignmentIdFor pid w di cid now₁, fid, pid, cid, w, di⟩ : Assignment)]).any
        (keyMatch fid pid w di cid) = true := by
      rw [List.any_append]
      simp [hkey, hkm]
    simp [addAssignment, hty, hfam, falsyS, hpid, hcid, hw, hp, hc, hkey2]

/-- Witness for C3: a concrete duplicated request pair against a one-person
one-chore family. -/
theorem C3_duplicate_assignment_witness :
    (addAssignment ⟨some "a1", none, "f1", "admin"⟩ "f1" (some "jo") (some "dishes")
        (some "2026-02-15") (some 1) "t1"
        ⟨[⟨"f1", "Fam"⟩], [⟨"a1", "f1", "a@x.com", "h"⟩],
          [⟨"jo", "f1", "Jo", "jo@x.com", none, "#f97373"⟩],
          [⟨"dishes", "f1", "Dishes"⟩], []⟩).status = 201 ∧
    countKey "f1" "jo" "2026-02-15" 1 "dishes"
      (addAssignment ⟨some "a1", none, "f1", "admin"⟩ "f1" (some "jo") (some "dishes")
        (some "2026-02-15") (some 1) "t1"
        ⟨[⟨"f1", "Fam"⟩], [⟨"a1", "f1", "a@x.com", "h"⟩],
          [⟨"jo", "f1", "Jo", "jo@x.com", none, "#f97373"⟩],
          [⟨"dishes", "f1", "Dishes"⟩], []⟩).store = 1 ∧
    addAssignment ⟨some "a1", none, "f1", "admin"⟩ "f1" (some "jo") (some "dishes")
        (some "2026-02-15") (some 1) "t2"
        (addAssignment ⟨some "a1", none, "f1", "admin"⟩ "f1" (some "jo") (some "dishes")
          (some "2026-02-15") (some 1) "t1"
          ⟨[⟨"f1", "Fam"⟩], [⟨"a1", "f1", "a@x.com", "h"⟩],
            [⟨"jo", "f1", "Jo", "jo@x.com", none, "#f97373"⟩],
            [⟨"dishes", "f1", "Dishes"⟩], []⟩).store =
      ⟨409, errJson "Assignment already exists",
        (addAssignment ⟨some "a1", none, "f1", "admin"⟩ "f1" (some "jo") (some "dishes")
          (some "2026-02-15") (some 1) "t1"
          ⟨[⟨"f1", "Fam"⟩], [⟨"a1", "f1", "a@x.com", "h"⟩],
            [⟨"jo", "f1", "Jo", "jo@x.com", none, "#f97373"⟩],
            [⟨"dishes", "f1", "Dishes"⟩], []⟩).store⟩ :=
  C3_duplicate_assignment ⟨some "a1", none, "f1", "admin"⟩ "f1" "jo" "dishes" "2026-02-15" 1
    "t1" "t2"
    ⟨[⟨"f1", "Fam"⟩], [⟨"a1", "f1", "a@x.com", "h"⟩],
      [⟨"jo", "f1", "Jo", "jo@x.com", none, "#f97373"⟩], [⟨"dishes", "f1", "Dishes"⟩], []⟩
    rfl rfl (by decide) (by decide) (by decide) rfl rfl rfl rfl

/-! ## Claim C4: whole-week bulk assignment -/

/-- If every day of `ds` already has a matching composite key in the store,
the week loop inserts nothing and returns the accumulator unchanged. -/
theorem weekLoop_all_present (fid pid cid w now : String) :
    ∀ (ds : List Nat) (s : Store) (acc : List Assignment),
    (∀ d ∈ ds, s.assignments.any (keyMatch fid pid w d cid) = true) →
    weekLoop fid pid cid w now ds s acc = Except.ok (acc, s) := by
  intro ds
  induction ds with
  | nil => intro s acc _; rfl
  | cons d ds ih =>
    intro s acc h
    have hd := h d (List.mem_cons_self d ds)
    simp only [weekLoop, hd, if_true]
    exact ih s acc (fun d' hd' => h d' (List.mem_cons_of_mem _ hd'))

/-- Characterization of the week loop when the generated ids are fresh and
pairwise distinct: it appends exactly the rows for the days whose composite
key is absent from the incoming store, in order. -/
theorem weekLoop_spec (fid pid cid w now : String) :
    ∀ (ds : List Nat) (s : Store) (acc : List Assignment),
    (∀ d ∈ ds, s.assignments.any
      (fun b => b.id == weekAssignmentIdFor pid w d cid now) = false) →
    ((ds.map (fun d => weekAssignmentIdFor pid w d cid now)).Nodup) →
    ds.Nodup →
    weekLoop fid pid cid w now ds s acc =
      Except.ok (acc ++ weekCreated fid pid cid w now ds s,
        { s with assignments := s.assignments ++ weekCreated fid pid cid w now ds s }) := by
  intro ds
  induction ds with
  | nil => intro s acc _ _ _; simp [weekLoop, weekCreated]
  | cons d ds ih =>
    intro s acc hfresh hmapnd hnd
    rcases hb : s.assignments.any (keyMatch fid pid w (d : Int) cid) with _ | _
    · -- day `d` missing: the loop inserts the row for `d`
      have hpk : s.assignments.any
          (fun b => b.id == weekAssignmentIdFor pid w d cid now) = false :=
        hfresh d (List.mem_cons_self d ds)
      simp only [weekLoop, hb, Bool.false_eq_true, if_false, insertAssignment, hpk, hb]
      have hrec := ih { s with assignments := s.assignments ++
          [⟨weekAssignmentIdFor pid w d cid now, fid, pid, cid, w, (d : Int)⟩] }
        (acc ++ [⟨weekAssignmentIdFor pid w d cid now, fid, pid, cid, w, (d : Int)⟩])
        ?_ (List.Nodup.of_cons hmapnd) (List.Nodup.of_cons hnd)
      · rw [hrec]
        have hkmne : ∀ d' ∈ ds, keyMatch fid pid w (d' : Int) cid
            (⟨weekAssignmentIdFor pid w d cid now, fid, pid, cid, w, (d : Int)⟩ :
              Assignment) = false := by
          intro d' hd'
          have hne : d ≠ d' := fun he => (List.nodup_cons.mp hnd).1 (he ▸ hd')
          have hcast : ((d : Int) == (d' : Int)) = false := by
            rw [beq_eq_false_iff_ne]
            exact_mod_cast hne
          simp [keyMatch, hcast]
        have hW2 : weekCreated fid pid cid w now ds
            { s with assignments := s.assignments ++
              [⟨weekAssignmentIdFor pid w d cid now, fid, pid, cid, w, (d : Int)⟩] } =
            weekCreated fid pid cid w now ds s := by
          unfold weekCreated
          congr 1
          apply List.filter_congr
          intro d' hd'
          simp [List.any_append, hkmne d' hd']
        have hW : weekCreated fid pid cid w now (d :: ds) s =
            ⟨weekAssignmentIdFor pid w d cid now, fid, pid, cid, w, (d : Int)⟩ ::
              weekCreated fid pid cid w now ds s := by
          simp [weekCreated, List.filter_cons, hb]
        rw [hW2, hW]
        simp [List.append_assoc]
      · intro d' hd'
        have h1 : s.assignments.any
            (fun b => b.id == weekAssignmentIdFor pid w d' cid now) = false :=
          hfresh d' (List.mem_cons_of_mem _ hd')
        have h2 : weekAssignmentIdFor pid w d cid now ≠
            weekAssignmentIdFor pid w d' cid now := by
          intro he
          have hmem : weekAssignmentIdFor pid w d' cid now ∈
              ds.map (fun e => weekAssignmentIdFor pid w e cid now) :=
            List.mem_map_of_mem _ hd'
          rw [← he] at hmem
          exact (List.nodup_cons.mp hmapnd).1 hmem
        simp [List.any_append, h1, h2]
    · -- day `d` already present: the loop skips it
      simp only [weekLoop, hb, if_true]
      rw [ih s acc (fun d' hd' => hfresh d' (List.mem_cons_of_mem _ hd'))
        (List.Nodup.of_cons hmapnd) (List.Nodup.of_cons hnd)]
      simp [weekCreated, List.filter_cons, hb]

/-- C4: the whole-week bulk operation inserts one assignment for each day
index 0..6 whose `(person, chore, week, day)` key is absent, silently skips
the present ones, and returns exactly the newly created assignments; a
second identical run leaves the store unchanged and returns an empty
array (idempotence).  The generated row ids are assumed fresh and pairwise
distinct (the code would answer 500 on a primary-key collision). -/
theorem C4_week_bulk_idempotent (u : Claims) (fid pid cid w now₁ now₂ : String) (s : Store)
    (hty : u.type = "admin") (hfam : u.familyId = fid)
    (hpid : pid ≠ "") (hcid : cid ≠ "") (hw : w ≠ "")
    (hp : s.people.any (fun p => p.id == pid && p.family_id == fid) = true)
    (hc : s.chores.any (fun c => c.id == cid && c.family_id == fid) = true)
    (hfresh : ∀ d ∈ List.range 7, s.assignments.any
      (fun b => b.id == weekAssignmentIdFor pid w d cid now₁) = false)
    (hnd : ((List.range 7).map (fun d => weekAssignmentIdFor pid w d cid now₁)).Nodup) :
    addWeekAssignments u fid (some pid) (some cid) (some w) now₁ s =
      ⟨201, Json.arr ((weekCreated fid pid cid w now₁ (List.range 7) s).map assignmentJson),
        { s with assignments :=
          s.assignments ++ weekCreated fid pid cid w now₁ (List.range 7) s }⟩ ∧
    addWeekAssignments u fid (some pid) (some cid) (some w) now₂
        (addWeekAssignments u fid (some pid) (some cid) (some w) now₁ s).store =
      ⟨201, Json.arr [],
        (addWeekAssignments u fid (some pid) (some cid) (some w) now₁ s).store⟩ := by
  have hloop := weekLoop_spec fid pid cid w now₁ (List.range 7) s [] hfresh hnd
    (List.nodup_range 7)
  have h1 : addWeekAssignments u fid (some pid) (some cid) (some w) now₁ s =
      ⟨201, Json.arr ((weekCreated fid pid cid w now₁ (List.range 7) s).map assignmentJson),
        { s with assignments :=
          s.assignments ++ weekCreated fid pid cid w now₁ (List.range 7) s }⟩ := by
    simp [addWeekAssignments, hty, hfam, falsyS, hpid, hcid, hw, hp, hc, hloop]
  refine ⟨h1, ?_⟩
  rw [h1]
  have hall : ∀ d ∈ List.range 7,
      (s.assignments ++ weekCreated fid pid cid w now₁ (List.range 7) s).any
        (keyMatch fid pid w d cid) = true := by
    intro d hd
    rw [List.any_append]
    rcases hsd : s.assignments.any (keyMatch fid pid w (d : Int) cid) with _ | _
    · have hmem : (⟨weekAssignmentIdFor pid w d cid now₁, fid, pid, cid, w, (d : Int)⟩ :
          Assignment) ∈ weekCreated fid pid cid w now₁ (List.range 7) s := by
        unfold weekCreated
        exact List.mem_map_of_mem _ (List.mem_filter.mpr ⟨hd, by simp [hsd]⟩)
      have : (weekCreated fid pid cid w now₁ (List.range 7) s).any
          (keyMatch fid pid w (d : Int) cid) = true :=
        List.any_eq_true.mpr ⟨_, hmem, by simp [keyMatch]⟩
      simp [this]
    · simp [hsd]
  have h2loop := weekLoop_all_present fid pid cid w now₂ (List.range 7)
    { s with assignments := s.assignments ++ weekCreated fid pid cid w now₁ (List.range 7) s }
    [] hall
  simp [addWeekAssignments, hty, hfam, falsyS, hpid, hcid, hw, hp, hc, h2loop]

/-- Witness for C4 at a concrete store that already carries the day-3
assignment of the same key: both runs answer 201, the first creating the
six missing days, the second creating nothing and leaving the store
identical. -/
theorem C4_week_bulk_idempotent_witness :
    addWeekAssignments ⟨some "a1", none, "f1", "admin"⟩ "f1" (some "jo") (some "dishes")
        (some "2026-02-15") "t1"
        ⟨[⟨"f1", "Fam"⟩], [⟨"a1", "f1", "a@x.com", "h"⟩],
          [⟨"jo", "f1", "Jo", "jo@x.com", none, "#f97373"⟩], [⟨"dishes", "f1", "Dishes"⟩],
          [⟨"old-id", "f1", "jo", "dishes", "2026-02-15", 3⟩]⟩ =
      ⟨201, Json.arr ((weekCreated "f1" "jo" "dishes" "2026-02-15" "t1" (List.range 7)
          ⟨[⟨"f1", "Fam"⟩], [⟨"a1", "f1", "a@x.com", "h"⟩],
            [⟨"jo", "f1", "Jo", "jo@x.com", none, "#f97373"⟩], [⟨"dishes", "f1", "Dishes"⟩],
            [⟨"old-id", "f1", "jo", "dishes", "2026-02-15", 3⟩]⟩).map assignmentJson),
        { (⟨[⟨"f1", "Fam"⟩], [⟨"a1", "f1", "a@x.com", "h"⟩],
            [⟨"jo", "f1", "Jo", "jo@x.com", none, "#f97373"⟩], [⟨"dishes", "f1", "Dishes"⟩],
            [⟨"old-id", "f1", "jo", "dishes", "2026-02-15", 3⟩]⟩ : Store) with
          assignments :=
            [⟨"old-id", "f1", "jo", "dishes", "2026-02-15", 3⟩] ++
              weekCreated "f1" "jo" "dishes" "2026-02-15" "t1" (List.range 7)
                ⟨[⟨"f1", "Fam"⟩], [⟨"a1", "f1", "a@x.com", "h"⟩],
                  [⟨"jo", "f1", "Jo", "jo@x.com", none, "#f97373"⟩],
                  [⟨"dishes", "f1", "Dishes"⟩],
                  [⟨"old-id", "f1", "jo", "dishes", "2026-02-15", 3⟩]⟩ }⟩ ∧
    addWeekAssignments ⟨some "a1", none, "f1", "admin"⟩ "f1" (some "jo") (some "dishes")
        (some "2026-02-15") "t2"
        (addWeekAssignments ⟨some "a1", none, "f1", "admin"⟩ "f1" (some "jo") (some "dishes")
          (some "2026-02-15") "t1"
          ⟨[⟨"f1", "Fam"⟩], [⟨"a1", "f1", "a@x.com", "h"⟩],
            [⟨"jo", "f1", "Jo", "jo@x.com", none, "#f97373"⟩], [⟨"dishes", "f1", "Dishes"⟩],
            [⟨"old-id", "f1", "jo", "dishes", "2026-02-15", 3⟩]⟩).store =
      ⟨201, Json.arr [],
        (addWeekAssignments ⟨some "a1", none, "f1", "admin"⟩ "f1" (some "jo") (some "dishes")
          (some "2026-02-15") "t1"
          ⟨[⟨"f1", "Fam"⟩], [⟨"a1", "f1", "a@x.com", "h"⟩],
            [⟨"jo", "f1", "Jo", "jo@x.com", none, "#f97373"⟩], [⟨"dishes", "f1", "Dishes"⟩],
            [⟨"old-id", "f1", "jo", "dishes", "2026-02-15", 3⟩]⟩).store⟩ :=
  C4_week_bulk_idempotent ⟨some "a1", none, "f1", "admin"⟩ "f1" "jo" "dishes" "2026-02-15"
    "t1" "t2"
    ⟨[⟨"f1", "Fam"⟩], [⟨"a1", "f1", "a@x.com", "h"⟩],
      [⟨"jo", "f1", "Jo", "jo@x.com", none, "#f97373"⟩], [⟨"dishes", "f1", "Dishes"⟩],
      [⟨"old-id", "f1", "jo", "dishes", "2026-02-15", 3⟩]⟩
    rfl rfl (by decide) (by decide) (by decide) rfl rfl (by decide) (by decide)

/-! ## Claim C7: month matrix -/

/-- One unfolding of the `while (true)` row loop. -/
theorem buildWeeks_unfold (c e : Int) :
    buildWeeks c e = if e ≤ c + 6 then [consecFrom c 7]
      else consecFrom c 7 :: buildWeeks (c + 7) e := by
  rw [buildWeeks]

theorem consecFrom_length (c : Int) (n : Nat) : (consecFrom c n).length = n := by
  simp [consecFrom]

theorem mem_consecFrom {c : Int} {n : Nat} {z : Int} :
    z ∈ consecFrom c n ↔ c ≤ z ∧ z < c + n := by
  simp only [consecFrom, List.mem_map, List.mem_range]
  constructor
  · rintro ⟨i, hi, rfl⟩
    omega
  · rintro ⟨h1, h2⟩
    exact ⟨(z - c).toNat, by omega, by omega⟩

theorem consecFrom_add (c : Int) (a b : Nat) :
    consecFrom c (a + b) = consecFrom c a ++ consecFrom (c + a) b := by
  unfold consecFrom
  rw [List.range_add, List.map_append, List.map_map]
  congr 1
  apply List.map_congr_left
  intro i _
  simp only [Function.comp_apply]
  push_cast
  ring

theorem buildWeeks_length_pos (c e : Int) : 0 < (buildWeeks c e).length := by
  rw [buildWeeks_unfold]
  split <;> simp

theorem buildWeeks_rows (c e : Int) : ∀ wk ∈ buildWeeks c e, ∃ s0, wk = consecFrom s0 7 := by
  induction c, e using buildWeeks.induct with
  | case1 c e h =>
    rw [buildWeeks_unfold, if_pos h]
    intro wk hwk
    simp at hwk
    exact ⟨c, hwk⟩
  | case2 c e h ih =>
    rw [buildWeeks_unfold, if_neg h]
    intro wk hwk
    rcases List.mem_cons.mp hwk with rfl | hmem
    · exact ⟨c, rfl⟩
    · exact ih wk hmem

theorem buildWeeks_flatten (c e : Int) :
    (buildWeeks c e).flatten = consecFrom c (7 * (buildWeeks c e).length) := by
  induction c, e using buildWeeks.induct with
  | case1 c e h =>
    rw [buildWeeks_unfold, if_pos h]
    simp
  | case2 c e h ih =>
    rw [buildWeeks_unfold, if_neg h]
    simp only [List.flatten_cons, List.length_cons, ih]
    rw [show 7 * ((buildWeeks (c + 7) e).length + 1) =
      7 + 7 * (buildWeeks (c + 7) e).length by ring]
    rw [consecFrom_add]
    norm_num

theorem buildWeeks_last_ge (c e : Int) : e ≤ c + 7 * (buildWeeks c e).length - 1 := by
  induction c, e using buildWeeks.induct with
  | case1 c e h =>
    rw [buildWeeks_unfold, if_pos h]
    simp
    omega
  | case2 c e h ih =>
    rw [buildWeeks_unfold, if_neg h]
    simp only [List.length_cons]
    push_cast
    omega

theorem buildWeeks_early (c e : Int) :
    ∀ i : Nat, i + 1 < (buildWeeks c e).length → c + 7 * i + 6 < e := by
  induction c, e using buildWeeks.induct with
  | case1 c e h =>
    rw [buildWeeks_unfold, if_pos h]
    intro i hi
    simp at hi
  | case2 c e h ih =>
    rw [buildWeeks_unfold, if_neg h]
    intro i hi
    simp only [List.length_cons] at hi
    cases i with
    | zero =>
      push_cast
      omega
    | succ j =>
      have hj := ih j (by omega)
      push_cast at hj ⊢
      omega

theorem buildWeeks_head (c e : Int) : (buildWeeks c e).head? = some (consecFrom c 7) := by
  rw [buildWeeks_unfold]
  split <;> rfl

/-- C7: for every reference month, `monthMatrix` returns only complete
weeks (each row is 7 consecutive dates, so the total date count is a
multiple of 7); the first row starts at the Sunday at or before the 1st of
the month; every date from the 1st through the last day of the month
appears; and row generation stops with the first row whose last date
reaches or passes the month's final day. -/
theorem C7_monthMatrix_correct (y : Int) (m : Nat) :
    (∀ wk ∈ monthMatrix y m, ∃ s0, wk = consecFrom s0 7) ∧
    (monthMatrix y m).flatten.length % 7 = 0 ∧
    ((monthMatrix y m).head? =
        some (consecFrom (getWeekStart ⟨firstOfMonthDay y m, 0⟩).day 7) ∧
      jsGetDay (getWeekStart ⟨firstOfMonthDay y m, 0⟩).day = 0 ∧
      (getWeekStart ⟨firstOfMonthDay y m, 0⟩).day ≤ firstOfMonthDay y m ∧
      firstOfMonthDay y m < (getWeekStart ⟨firstOfMonthDay y m, 0⟩).day + 7) ∧
    (∀ z : Int, firstOfMonthDay y m ≤ z → z ≤ endOfMonthDay y m →
      z ∈ (monthMatrix y m).flatten) ∧
    (∀ i : Nat, i + 1 < (monthMatrix y m).length →
      (getWeekStart ⟨firstOfMonthDay y m, 0⟩).day + 7 * i + 6 < endOfMonthDay y m) ∧
    endOfMonthDay y m ≤
      (getWeekStart ⟨firstOfMonthDay y m, 0⟩).day + 7 * ((monthMatrix y m).length - 1) + 6 := by
  have hmm : monthMatrix y m =
      buildWeeks (getWeekStart ⟨firstOfMonthDay y m, 0⟩).day (endOfMonthDay y m) := rfl
  rw [hmm]
  have hlenpos := buildWeeks_length_pos (getWeekStart ⟨firstOfMonthDay y m, 0⟩).day
    (endOfMonthDay y m)
  have hlast := buildWeeks_last_ge (getWeekStart ⟨firstOfMonthDay y m, 0⟩).day
    (endOfMonthDay y m)
  refine ⟨buildWeeks_rows _ _, ?_, ⟨buildWeeks_head _ _, ?_, ?_, ?_⟩, ?_, ?_, ?_⟩
  · rw [buildWeeks_flatten, consecFrom_length]
    simp [Nat.mul_mod_right]
  · simp only [getWeekStart, jsGetDay]
    omega
  · simp only [getWeekStart, jsGetDay]
    omega
  · simp only [getWeekStart, jsGetDay]
    omega
  · intro z h1 h2
    rw [buildWeeks_flatten, mem_consecFrom]
    constructor
    · have : (getWeekStart ⟨firstOfMonthDay y m, 0⟩).day ≤ firstOfMonthDay y m := by
        simp only [getWeekStart, jsGetDay]
        omega
      omega
    · push_cast
      omega
  · exact buildWeeks_early _ _
  · have h1 : (1 : Nat) ≤ (buildWeeks (getWeekStart ⟨firstOfMonthDay y m, 0⟩).day
        (endOfMonthDay y m)).length := hlenpos
    omega

/-- Witness for C7: in February 2026 (reference month `(2026, 1)`),
2026-02-06 (day number 20490) lies between the first and last day of the
month and indeed appears in the flattened month matrix. -/
theorem C7_monthMatrix_correct_witness :
    firstOfMonthDay 2026 1 ≤ 20490 ∧ (20490 : Int) ≤ endOfMonthDay 2026 1 ∧
    (20490 : Int) ∈ (monthMatrix 2026 1).flatten :=
  ⟨by decide, by decide,
    (C7_monthMatrix_correct 2026 1).2.2.2.1 20490 (by decide) (by decide)⟩

/-! ## Claim C8: family creation -/

theorem mentions_obj {s : String} {fs : List (String × Json)} :
    Json.Mentions s (Json.obj fs) → ∃ k v, (k, v) ∈ fs ∧ Json.Mentions s v := by
  intro h
  cases h with
  | inObj hm hmem => exact ⟨_, _, hmem, hm⟩

theorem mentions_str {s t : String} : Json.Mentions s (Json.str t) → t = s := by
  intro h
  cases h
  rfl

/-- C8 is false as stated: the 201 response of a successful family creation
contains only the token and the family id and name — the four default
chores are inserted into the store but are nowhere in the response body. -/
theorem C8_counterexample :
    (createFamily (fun p => "h" ++ p) (fun _ => "tok")
      ⟨some "Smith Family", some "admin@x.com", some "pw123"⟩ "t0" Store.empty).status = 201 ∧
    "Dishes" ∈ (createFamily (fun p => "h" ++ p) (fun _ => "tok")
      ⟨some "Smith Family", some "admin@x.com", some "pw123"⟩ "t0"
        Store.empty).store.chores.map Chore.label ∧
    ¬ Json.Mentions "Dishes" (createFamily (fun p => "h" ++ p) (fun _ => "tok")
      ⟨some "Smith Family", some "admin@x.com", some "pw123"⟩ "t0" Store.empty).body := by
  refine ⟨rfl, by decide, ?_⟩
  intro h
  have hb : (createFamily (fun p => "h" ++ p) (fun _ => "tok")
      ⟨some "Smith Family", some "admin@x.com", some "pw123"⟩ "t0" Store.empty).body =
      Json.obj [("token", Json.str "tok"),
        ("family", Json.obj [("id", Json.str "smith-family-t0"),
          ("name", Json.str "Smith Family")])] := rfl
  rw [hb] at h
  obtain ⟨k, v, hmem, hv⟩ := mentions_obj h
  simp only [List.mem_cons, List.mem_singleton, Prod.mk.injEq, List.not_mem_nil,
    or_false] at hmem
  rcases hmem with ⟨rfl, rfl⟩ | ⟨rfl, rfl⟩
  · exact absurd (mentions_str hv) (by decide)
  · obtain ⟨k₂, v₂, hmem₂, hv₂⟩ := mentions_obj hv
    simp only [List.mem_cons, List.mem_singleton, Prod.mk.injEq, List.not_mem_nil,
      or_false] at hmem₂
    rcases hmem₂ with ⟨rfl, rfl⟩ | ⟨rfl, rfl⟩
    · exact absurd (mentions_str hv₂) (by decide)
    · exact absurd (mentions_str hv₂) (by decide)

/-- C8 as amended: with the three fields present, `POST /families` is
all-or-nothing — either some insert violates a constraint and the call
answers 500 with the store unchanged, or it answers 201 having appended
exactly the family row, one admin row and the four default chores
(Dishes, Trash, Laundry, Vacuum) to the store; the 201 body carries the
token and the family id and name (the chores are in the store, not in the
response). -/
theorem C8_create_family_atomic (hash : String → String) (sign : Claims → String)
    (b : CreateFamilyBody) (now : String) (s : Store)
    (hname : falsyS b.name = false) (hemail : falsyS b.adminEmail = false)
    (hpw : falsyS b.adminPassword = false) :
    ((createFamily hash sign b now s).status = 500 ∧
      (createFamily hash sign b now s).store = s) ∨
    ((createFamily hash sign b now s).status = 201 ∧
      (createFamily hash sign b now s).store = Store.mk
        (s.families ++ [⟨slugify (b.name.getD "") ++ "-" ++ now, b.name.getD ""⟩])
        (s.admins ++ [⟨"admin-" ++ now, slugify (b.name.getD "") ++ "-" ++ now,
          b.adminEmail.getD "", hash (b.adminPassword.getD "")⟩])
        s.people
        (s.chores ++ [⟨"dishes-" ++ now, slugify (b.name.getD "") ++ "-" ++ now, "Dishes"⟩,
          ⟨"trash-" ++ now, slugify (b.name.getD "") ++ "-" ++ now, "Trash"⟩,
          ⟨"laundry-" ++ now, slugify (b.name.getD "") ++ "-" ++ now, "Laundry"⟩,
          ⟨"vacuum-" ++ now, slugify (b.name.getD "") ++ "-" ++ now, "Vacuum"⟩])
        s.assignments ∧
      (createFamily hash sign b now s).body =
        Json.obj [("token", Json.str (sign ⟨some ("admin-" ++ now), none,
          slugify (b.name.getD "") ++ "-" ++ now, "admin"⟩)),
          ("family", Json.obj [("id", Json.str (slugify (b.name.getD "") ++ "-" ++ now)),
            ("name", Json.str (b.name.getD ""))])] ∧
      ∀ lab ∈ ["Dishes", "Trash", "Laundry", "Vacuum"],
        lab ∈ (createFamily hash sign b now s).store.chores.map Chore.label) := by
  simp only [createFamily, insertFamily, insertAdmin, insertChore, hname, hemail, hpw,
    Bool.false_or, Bool.false_eq_true, if_false]
  split_ifs with f1
  · simp
  · dsimp only []
    split_ifs with f2 f3
    · simp
    · simp
    · dsimp only []
      split_ifs with f4
      · simp
      · dsimp only []
        split_ifs with f5
        · simp
        · dsimp only []
          split_ifs with f6
          · simp
          · dsimp only []
            split_ifs with f7
            · simp
            · right
              refine ⟨rfl, ?_, rfl, ?_⟩
              · simp [List.append_assoc]
              · intro lab hlab
                fin_cases hlab <;> simp

/-- Witness for C8: creating the family `Smith Family` on the empty store
succeeds, appending the family, one admin and the four default chores. -/
theorem C8_create_family_atomic_witness :
    ((createFamily (fun p => "h" ++ p) (fun _ => "tok")
      ⟨some "Smith Family", some "admin@x.com", some "pw123"⟩ "t0" Store.empty).status = 500 ∧
      (createFamily (fun p => "h" ++ p) (fun _ => "tok")
        ⟨some "Smith Family", some "admin@x.com", some "pw123"⟩ "t0"
          Store.empty).store = Store.empty) ∨
    ((createFamily (fun p => "h" ++ p) (fun _ => "tok")
      ⟨some "Smith Family", some "admin@x.com", some "pw123"⟩ "t0" Store.empty).status = 201 ∧
      (createFamily (fun p => "h" ++ p) (fun _ => "tok")
        ⟨some "Smith Family", some "admin@x.com", some "pw123"⟩ "t0"
          Store.empty).store = Store.mk
        (Store.empty.families ++ [⟨slugify "Smith Family" ++ "-" ++ "t0", "Smith Family"⟩])
        (Store.empty.admins ++ [⟨"admin-" ++ "t0", slugify "Smith Family" ++ "-" ++ "t0",
          "admin@x.com", (fun p => "h" ++ p) "pw123"⟩])
        Store.empty.people
        (Store.empty.chores ++
          [⟨"dishes-" ++ "t0", slugify "Smith Family" ++ "-" ++ "t0", "Dishes"⟩,
          ⟨"trash-" ++ "t0", slugify "Smith Family" ++ "-" ++ "t0", "Trash"⟩,
          ⟨"laundry-" ++ "t0", slugify "Smith Family" ++ "-" ++ "t0", "Laundry"⟩,
          ⟨"vacuum-" ++ "t0", slugify "Smith Family" ++ "-" ++ "t0", "Vacuum"⟩])
        Store.empty.assignments ∧
      (createFamily (fun p => "h" ++ p) (fun _ => "tok")
        ⟨some "Smith Family", some "admin@x.com", some "pw123"⟩ "t0" Store.empty).body =
        Json.obj [("token", Json.str ((fun _ => "tok")
          (⟨some ("admin-" ++ "t0"), none, slugify "Smith Family" ++ "-" ++ "t0",
            "admin"⟩ : Claims))),
          ("family", Json.obj [("id", Json.str (slugify "Smith Family" ++ "-" ++ "t0")),
            ("name", Json.str "Smith Family")])] ∧
      ∀ lab ∈ ["Dishes", "Trash", "Laundry", "Vacuum"],
        lab ∈ (createFamily (fun p => "h" ++ p) (fun _ => "tok")
          ⟨some "Smith Family", some "admin@x.com", some "pw123"⟩ "t0"
            Store.empty).store.chores.map Chore.label) :=
  C8_create_family_atomic (fun p => "h" ++ p) (fun _ => "tok")
    ⟨some "Smith Family", some "admin@x.com", some "pw123"⟩ "t0" Store.empty
    (by decide) (by decide) (by decide)

end ChoreCal
